import Mathlib

/-!
Shallow embedding of the form-hole HTTP handler.

The repository contains two variants of the same Cloud Function
(`src/functions/index.js` and `src/unnamed/part_000`).  Both export a
single request handler that validates and stores a POSTed guestbook
submission and renders the stored submissions as HTML on GET.  This file
embeds both variants as pure Lean functions: the Firestore store becomes
an explicit list of documents threaded through the handler, `new Date()`
becomes an explicit `now : Nat` parameter (epoch milliseconds), and the
platform `Date` formatting builtins are modelled as fixed executable
functions of the instant.
-/

namespace FormHole

/-- A value of a parsed form-body field: either a string, or some other
(non-string) JavaScript value, which the handler's `typeof` check rejects. -/
inductive JsVal where
  | str : String → JsVal
  | other : JsVal
deriving DecidableEq

/-- A document stored in the `submissions` collection.  Fields may be
absent (`none`) for legacy or externally written documents; documents
written by the POST path always have all three fields. -/
structure Submission where
  name : Option String
  message : Option String
  timestamp : Option Nat
deriving DecidableEq

/-- An HTTP response: status code and body text. -/
structure Response where
  status : Nat
  body : String
deriving DecidableEq

/-- The fixed token the content-type header must contain. -/
def urlencodedType : String := "application/x-www-form-urlencoded"

/-- Whether `pat` occurs at the start of `l`. -/
def listStartsWith : List Char → List Char → Bool
  | [], _ => true
  | _ :: _, [] => false
  | p :: ps, a :: ts => p == a && listStartsWith ps ts

/-- Whether `pat` occurs somewhere in `l`. -/
def listHasSub (pat : List Char) : List Char → Bool
  | [] => pat.isEmpty
  | a :: t => listStartsWith pat (a :: t) || listHasSub pat t

/-- Model of JavaScript `String.prototype.includes`: substring occurrence. -/
def strContains (s pat : String) : Bool := listHasSub pat.data s.data

/-- Model of JavaScript `String.prototype.trim`: drop leading and trailing
whitespace characters. -/
def jsTrim (s : String) : String :=
  ⟨(((s.data.dropWhile Char.isWhitespace).reverse).dropWhile Char.isWhitespace).reverse⟩

/-- `!contentType || !contentType.includes("application/x-www-form-urlencoded")`,
negated: the header must be present, non-empty (truthy) and contain the token. -/
def ctOk : Option String → Bool
  | none => false
  | some s => !(s == "") && strContains s urlencodedType

/-- `const {name, message} = req.body`: property lookup in the parsed body
object (a JavaScript object has at most one property per key). -/
def getField (body : List (String × JsVal)) (k : String) : Option JsVal :=
  (body.find? (fun p => p.1 == k)).map Prod.snd

/-- `!v || typeof v !== "string" || v.trim() === ""`: absent (`undefined`)
fields and non-string values fail, and so do strings that are empty (falsy)
or whitespace-only after trimming. -/
def fieldBad : Option JsVal → Bool
  | none => true
  | some (JsVal.str s) => s == "" || jsTrim s == ""
  | some JsVal.other => true

/-- The string carried by a field; only used under the guard that the field
is a string (for `name.length` and `name.trim()`). -/
def strVal : Option JsVal → String
  | some (JsVal.str s) => s
  | _ => ""

/-- `const allowedFields = ["name", "message"]` -/
def allowedFields : List String := ["name", "message"]

/-- `receivedFields.length !== allowedFields.length ||
!receivedFields.every((field) => allowedFields.includes(field))`, negated
(`Array.isArray(receivedFields)` always holds for `Object.keys`). -/
def fieldSetOk (receivedFields : List String) : Bool :=
  receivedFields.length == allowedFields.length
    && receivedFields.all (fun f => allowedFields.contains f)

/-- The POST branch of `exports.app`, identical in both variants up to the
success message.  `now` models `new Date()` at request time; the store is
the list of persisted documents and `.add` appends one document. -/
def handlePost (successMsg : String) (ct : Option String)
    (body : List (String × JsVal)) (now : Nat) (store : List Submission) :
    Response × List Submission :=
  if !(ctOk ct) then
    (⟨400, "Invalid request format. Expected URL-encoded data."⟩, store)
  else
    let name := getField body "name"
    let message := getField body "message"
    let receivedFields := body.map Prod.fst
    if fieldBad name then
      (⟨400, "Validation Error: 'name' field is required and cannot be empty."⟩, store)
    else if fieldBad message then
      (⟨400, "Validation Error: 'message' field is required and cannot be empty."⟩, store)
    else if 100 < (strVal name).length then
      (⟨400, "Validation Error: 'name' field must be 100 characters or less."⟩, store)
    else if 2000 < (strVal message).length then
      (⟨400, "Validation Error: 'message' field must be 2000 characters or less."⟩, store)
    else if !(fieldSetOk receivedFields) then
      (⟨400, "Validation Error: Only 'name' and 'message' fields are allowed."⟩, store)
    else
      (⟨200, successMsg⟩,
        store ++ [⟨some (jsTrim (strVal name)), some (jsTrim (strVal message)), some now⟩])

/-- Success message of the `src/functions/index.js` variant. -/
def successMsgIndex : String :=
  "Thanks for your message! It will be recorded for all eternity."

/-- Success message of the `src/unnamed/part_000` variant. -/
def successMsgP0 : String := "Thanks for writing your message!"

/-- The ampersand character. -/
def ampCh : Char := '&'

/-- The less-than character. -/
def ltCh : Char := '<'

/-- The greater-than character. -/
def gtCh : Char := '>'

/-- The double-quote character (code point 34). -/
def quotCh : Char := Char.ofNat 34

/-- The single-quote character (code point 39). -/
def aposCh : Char := Char.ofNat 39

/-- Model of `s.replace(/c/g, r)` for a single-character pattern: every
occurrence of `c` is replaced by the string `r`, every other character is
kept, in one left-to-right pass. -/
def replCh (c : Char) (r : List Char) : List Char → List Char
  | [] => []
  | a :: t => (if a = c then r else [a]) ++ replCh c r t

/-- The last four `replace` calls of `escapeHtml` in
`src/functions/index.js` (note: no trailing semicolon in the replacement
spellings there). -/
def chainTailIndex (l : List Char) : List Char :=
  replCh aposCh "&#039".data
    (replCh quotCh "&quot".data
      (replCh gtCh "&gt".data
        (replCh ltCh "&lt".data l)))

/-- `escapeHtml` of `src/functions/index.js`: five chained global
single-character `replace` calls, ampersand first; the replacement
spellings omit the trailing semicolon in this variant.  Non-string inputs
pass through unchanged in the source; this embedding covers the string
case, with the non-string passthrough handled at the call sites. -/
def escapeHtmlIndex (s : String) : String :=
  ⟨chainTailIndex (replCh ampCh "&amp".data s.data)⟩

/-- The last four `replace` calls of `escapeHtml` in
`src/unnamed/part_000` (replacement spellings with trailing semicolon). -/
def chainTailP0 (l : List Char) : List Char :=
  replCh aposCh "&#039;".data
    (replCh quotCh "&quot;".data
      (replCh gtCh "&gt;".data
        (replCh ltCh "&lt;".data l)))

/-- `escapeHtml` of `src/unnamed/part_000`: the same five chained global
`replace` calls, ampersand first, with the usual semicolon-terminated
entity spellings. -/
def escapeHtmlP0 (s : String) : String :=
  ⟨chainTailP0 (replCh ampCh "&amp;".data s.data)⟩

/-- The ordering key of the query; absent timestamps sort as 0. -/
def tsVal (d : Submission) : Nat := d.timestamp.getD 0

/-- Modelled from the spec: the Submission Store is an external collaborator
(`db.collection("submissions").orderBy("timestamp", "desc").limit(n).get()`)
whose query returns the stored records ordered by timestamp descending,
limited to a fixed count. -/
def storeQuery (store : List Submission) (n : Nat) : List Submission :=
  (store.insertionSort (fun a b => tsVal b ≤ tsVal a)).take n

/-- Modelled from the spec: `Date#toISOString`, the machine-readable instant
a timestamp converts to (platform builtin, not in `src/`); embedded as a
fixed injective rendering of the epoch-millisecond value. -/
def isoString (t : Nat) : String := "@" ++ toString t

/-- Modelled from the spec: `Date#toLocaleString("en-US")`, the display-ready
date a timestamp converts to (platform builtin, not in `src/`). -/
def localeString (t : Nat) : String := toString t ++ " (en-US)"

/-- Template interpolation of `escapeHtml(v)` in the index.js GET branch,
where `v` may be `undefined` (absent field): `escapeHtml` passes non-string
values through unchanged and the template literal stringifies `undefined`. -/
def interpEsc (v : Option String) : String :=
  match v with
  | none => "undefined"
  | some s => escapeHtmlIndex s

/-- One block of `snapshot.docs.map((sub) => ...)` in the index.js GET
branch.  `sub.timestamp.toDate()` throws when the field is absent, which
this embedding renders as `none`. -/
def renderSubIndex (d : Submission) : Option String :=
  match d.timestamp with
  | none => none
  | some t => some
      ("\n            <div class=\"submission\">\n              <p class=\"name\">"
        ++ interpEsc d.name
        ++ "</p>\n              <time data-timestamp=\"" ++ escapeHtmlIndex (isoString t)
        ++ "\">\n                " ++ escapeHtmlIndex (localeString t)
        ++ "\n              </time>\n              <p class=\"message\">" ++ interpEsc d.message
        ++ "</p>\n            </div>")

/-- `snapshot.docs.map(...)` with JavaScript exception propagation: the
first block whose timestamp access throws aborts the whole mapping. -/
def renderAll : List Submission → Option (List String)
  | [] => some []
  | d :: t =>
    match renderSubIndex d, renderAll t with
    | some b, some bs => some (b :: bs)
    | _, _ => none

/-- The submission blocks the index.js GET branch renders (`none` when the
mapping throws). -/
def getBlocksIndex (store : List Submission) : Option (List String) :=
  renderAll (storeQuery store 500)

/-- The static HTML document of the index.js GET branch, around the
`${submissionsHtml}` interpolation point (text braces written `\x7b`/`\x7d`). -/
def pageIndex (submissionsHtml : String) : String :=
  "
<!DOCTYPE html>
<html lang=\"en\">
  <head>
    <meta charset=\"UTF-8\">
    <meta name=\"viewport\" content=\"width=device-width, initial-scale=1.0\">
    <title>HotFX Form Hole</title>
    <style>
      body \x7b
        font-family: 'Helvetica Neue', Helvetica, Arial, sans-serif;
        line-height: 1.6;
        padding: 20px;
        background-color: #f4f4f4;
        color: #333;
      \x7d

      h1 \x7b
        color: black;
        padding-bottom: 10px;
      \x7d

      h1 img \x7b
        margin-right: 8px;
        position: relative;
        top: 20px;
      \x7d

      .submission \x7b
        background-color: #fff;
        padding: 15px;
        margin-bottom: 15px;
        box-shadow: 0 2px 4px rgba(0,0,0,0.1);
        max-width: 800px;
      \x7d

      .name \x7b
        font-weight: bold;
        margin-bottom: 5px;
      \x7d

      .message \x7b
        margin-bottom: 10px;
        white-space: pre-wrap;
      \x7d

      .timestamp \x7b
        color: #666;
        font-size: 0.8em;
      \x7d

      code \x7b
        font-family: Courier New, Courier, monospace;
        font-size: 1.1em;
      \x7d

      a \x7b
        color: DodgerBlue;
        text-decoration: none;
      \x7d

      a:hover \x7b
        text-decoration: underline;
      \x7d

      a:visited \x7b
        color: SlateBlue;
      \x7d
    </style>
    <script>
      document.addEventListener('DOMContentLoaded', function() \x7b
        document.querySelectorAll('time[data-timestamp]').forEach(function(el) \x7b
          const date = new Date(el.getAttribute('data-timestamp'))
          if (!isNaN(date)) el.textContent = date.toLocaleString()
        \x7d)
      \x7d)
    </script>
  </head>
  <body>
    <h1>
      <img width=\"200\" src=\"https://static.hot.page/hotfx-logo.svg\">
      Form Hole
    </h1>
    <p>
      This is a demo for the <code>&lt;hotfx-form&gt;</code> custom element.
      <a href=\"https://fx.hot.page/form\">Read more</a> or
      <a href=\"https://github.com/hot-page/form-hole\">view the source.</a>
    </p>
    " ++ submissionsHtml ++ "
  </body>
</html>"

/-- The GET branch of the index.js variant. -/
def handleGetIndex (store : List Submission) : Response :=
  let docs := storeQuery store 500
  match getBlocksIndex store with
  | none => ⟨500, "Server Error: Could not retrieve submissions."⟩
  | some blocks =>
    let submissionsHtml :=
      if 0 < docs.length then String.join blocks else "<p>No submissions yet.</p>"
    ⟨200, pageIndex submissionsHtml⟩

/-- The view object the part_000 `snapshot.forEach` pushes for each
document (`doc.id` is also copied there but never rendered, so it is
omitted).  `rawTimestamp` is never assigned anywhere in that variant,
hence recorded as absent. -/
structure SubView where
  name : String
  message : String
  timestamp : String
  rawTimestamp : Option String
deriving DecidableEq

/-- JavaScript `x || y` on a possibly-absent string (the empty string is
falsy). -/
def jsOr (v : Option String) (dflt : String) : String :=
  match v with
  | none => dflt
  | some s => if s == "" then dflt else s

/-- The per-document mapping of the part_000 GET branch:
`name: data.name || "N/A"`, `message: data.message || "N/A"`,
`timestamp: data.timestamp ? data.timestamp.toDate().toLocaleString("en-US") : "N/A"`. -/
def mapDocP0 (d : Submission) : SubView :=
  ⟨jsOr d.name "N/A",
    jsOr d.message "N/A",
    match d.timestamp with
    | some t => localeString t
    | none => "N/A",
    none⟩

/-- One block of `submissions.map((sub) => ...)` in the part_000 GET
branch, including the `data-timestamp="${sub.rawTimestamp || ""}"`
attribute. -/
def blockP0 (sub : SubView) : String :=
  "\n      <div class=\"submission\">\n        <p class=\"name\">"
    ++ escapeHtmlP0 sub.name
    ++ "</p>\n        <p class=\"timestamp\" data-timestamp=\"" ++ jsOr sub.rawTimestamp ""
    ++ "\">" ++ escapeHtmlP0 sub.timestamp
    ++ "</p>\n        <p class=\"message\">" ++ escapeHtmlP0 sub.message
    ++ "</p>\n      </div>\n        "

/-- The view objects built by the part_000 GET branch. -/
def subsViews (store : List Submission) : List SubView :=
  (storeQuery store 50).map mapDocP0

/-- The submission blocks the part_000 GET branch renders. -/
def getBlocksP0 (store : List Submission) : List String :=
  (subsViews store).map blockP0

/-- The static HTML document of the part_000 GET branch, around the
`${submissionsHtml}` interpolation point (text braces written `\x7b`/`\x7d`). -/
def pageP0 (submissionsHtml : String) : String :=
  "
<!DOCTYPE html>
<html lang=\"en\">
  <head>
    <meta charset=\"UTF-8\">
    <meta name=\"viewport\" content=\"width=device-width, initial-scale=1.0\">
    <title>Submissions</title>
    <style>
      body \x7b font-family: sans-serif; line-height: 1.6; padding: 20px; background-color: #f4f4f4; color: #333; \x7d
      h1 \x7b color: #555; border-bottom: 2px solid #eee; padding-bottom: 10px; \x7d
      .submission \x7b background-color: #fff; padding: 15px; margin-bottom: 15px; box-shadow: 0 2px 4px rgba(0,0,0,0.1); \x7d
      .name \x7b font-weight: bold; margin-bottom: 5px; \x7d
      .message \x7b margin-bottom: 10px; \x7d
      .timestamp \x7b color: #666; font-size: 0.8em; margin: 0; \x7d
    </style>
    <script>
      document.addEventListener('DOMContentLoaded', function() \x7b
        // Format all timestamps based on user's browser timezone
        document.querySelectorAll('.timestamp[data-timestamp]').forEach(function(el) \x7b
          const timestamp = parseInt(el.getAttribute('data-timestamp'));
          if (timestamp) \x7b
            const date = new Date(timestamp);
            el.textContent = date.toLocaleString();
          \x7d
        \x7d);
      \x7d);
    </script>
  </head>
  <body>
    <h1>HotFX Form Hole</h1>
    " ++ submissionsHtml ++ "
  </body>
</html>"

/-- The GET branch of the part_000 variant. -/
def handleGetP0 (store : List Submission) : Response :=
  let subs := subsViews store
  let submissionsHtml :=
    if 0 < subs.length then String.join (getBlocksP0 store)
    else "<p>No submissions yet.</p>"
  ⟨200, pageP0 submissionsHtml⟩

/-- `exports.app` of `src/functions/index.js`: dispatch on the request
method; the response is paired with the resulting store state. -/
def appIndex (method : String) (ct : Option String)
    (body : List (String × JsVal)) (now : Nat) (store : List Submission) :
    Response × List Submission :=
  if method == "POST" then handlePost successMsgIndex ct body now store
  else if method == "GET" then (handleGetIndex store, store)
  else (⟨405, "Method Not Allowed. Only GET and POST are supported."⟩, store)

/-- `exports.app` of `src/unnamed/part_000`: dispatch on the request
method; the response is paired with the resulting store state. -/
def appP0 (method : String) (ct : Option String)
    (body : List (String × JsVal)) (now : Nat) (store : List Submission) :
    Response × List Submission :=
  if method == "POST" then handlePost successMsgP0 ct body now store
  else if method == "GET" then (handleGetP0 store, store)
  else (⟨405, "Method Not Allowed. Only GET and POST are supported."⟩, store)

/-- Spec-side description of the escaping with the part_000 spellings: each
original character is rewritten once, to its entity for the five special
characters and to itself otherwise.  Stated from the spec's words; compared
against the chained-`replace` implementation in the theorems below. -/
def escCharSemi (c : Char) : List Char :=
  if c = ampCh then "&amp;".data
  else if c = ltCh then "&lt;".data
  else if c = gtCh then "&gt;".data
  else if c = quotCh then "&quot;".data
  else if c = aposCh then "&#039;".data
  else [c]

/-- Spec-side description of the escaping with the index.js spellings
(no trailing semicolon). -/
def escCharNoSemi (c : Char) : List Char :=
  if c = ampCh then "&amp".data
  else if c = ltCh then "&lt".data
  else if c = gtCh then "&gt".data
  else if c = quotCh then "&quot".data
  else if c = aposCh then "&#039".data
  else [c]

/-- A single left-to-right pass rewriting each character independently. -/
def escMap (f : Char → List Char) : List Char → List Char
  | [] => []
  | a :: t => f a ++ escMap f t

/-- A name of untrimmed length 101 whose trimmed length is 1:
`"a"` followed by one hundred spaces. -/
def cexName : String := "a" ++ ⟨List.replicate 100 ' '⟩

/-- Conjunction of the six validation checks of the POST branch, in the
guard spelling of `handlePost`: a POST is stored iff all of them hold. -/
def postOk (ct : Option String) (body : List (String × JsVal)) : Bool :=
  ctOk ct
    && !(fieldBad (getField body "name"))
    && !(fieldBad (getField body "message"))
    && !(decide (100 < (strVal (getField body "name")).length))
    && !(decide (2000 < (strVal (getField body "message")).length))
    && fieldSetOk (body.map Prod.fst)

theorem replCh_append (c : Char) (r x y : List Char) :
    replCh c r (x ++ y) = replCh c r x ++ replCh c r y := by
  induction x with
  | nil => rfl
  | cons a t ih => simp [replCh, ih]

theorem replCh_single_ne {a c : Char} (h : ¬ a = c) (r : List Char) :
    replCh c r [a] = [a] := by
  simp [replCh, h]

theorem chainTailP0_append (x y : List Char) :
    chainTailP0 (x ++ y) = chainTailP0 x ++ chainTailP0 y := by
  simp [chainTailP0, replCh_append]

theorem chainTailIndex_append (x y : List Char) :
    chainTailIndex (x ++ y) = chainTailIndex x ++ chainTailIndex y := by
  simp [chainTailIndex, replCh_append]

theorem chainTailP0_single (a : Char) :
    chainTailP0 (if a = ampCh then "&amp;".data else [a]) = escCharSemi a := by
  by_cases h1 : a = ampCh
  · subst h1; decide
  rw [if_neg h1]
  by_cases h2 : a = ltCh
  · subst h2; decide
  by_cases h3 : a = gtCh
  · subst h3; decide
  by_cases h4 : a = quotCh
  · subst h4; decide
  by_cases h5 : a = aposCh
  · subst h5; decide
  rw [chainTailP0, replCh_single_ne h2, replCh_single_ne h3,
    replCh_single_ne h4, replCh_single_ne h5]
  simp [escCharSemi, h1, h2, h3, h4, h5]

theorem chainTailIndex_single (a : Char) :
    chainTailIndex (if a = ampCh then "&amp".data else [a]) = escCharNoSemi a := by
  by_cases h1 : a = ampCh
  · subst h1; decide
  rw [if_neg h1]
  by_cases h2 : a = ltCh
  · subst h2; decide
  by_cases h3 : a = gtCh
  · subst h3; decide
  by_cases h4 : a = quotCh
  · subst h4; decide
  by_cases h5 : a = aposCh
  · subst h5; decide
  rw [chainTailIndex, replCh_single_ne h2, replCh_single_ne h3,
    replCh_single_ne h4, replCh_single_ne h5]
  simp [escCharNoSemi, h1, h2, h3, h4, h5]

theorem chainP0_eq (l : List Char) :
    chainTailP0 (replCh ampCh "&amp;".data l) = escMap escCharSemi l := by
  induction l with
  | nil => rfl
  | cons a t ih =>
      have h : replCh ampCh "&amp;".data (a :: t)
          = (if a = ampCh then "&amp;".data else [a]) ++ replCh ampCh "&amp;".data t := rfl
      rw [h, chainTailP0_append, chainTailP0_single, ih]
      rfl

theorem chainIndex_eq (l : List Char) :
    chainTailIndex (replCh ampCh "&amp".data l) = escMap escCharNoSemi l := by
  induction l with
  | nil => rfl
  | cons a t ih =>
      have h : replCh ampCh "&amp".data (a :: t)
          = (if a = ampCh then "&amp".data else [a]) ++ replCh ampCh "&amp".data t := rfl
      rw [h, chainTailIndex_append, chainTailIndex_single, ih]
      rfl

theorem mem_escMap {f : Char → List Char} {c : Char} :
    ∀ {l : List Char}, c ∈ escMap f l → ∃ a, a ∈ l ∧ c ∈ f a := by
  intro l
  induction l with
  | nil => intro h; simp [escMap] at h
  | cons a t ih =>
      intro h
      rw [escMap] at h
      rcases List.mem_append.mp h with h | h
      · exact ⟨a, List.mem_cons_self a t, h⟩
      · rcases ih h with ⟨b, hb, hc⟩
        exact ⟨b, List.mem_cons_of_mem a hb, hc⟩

theorem escCharSemi_forbidden (a : Char) :
    ∀ x ∈ escCharSemi a, ¬ x = ltCh ∧ ¬ x = gtCh ∧ ¬ x = quotCh ∧ ¬ x = aposCh := by
  by_cases h1 : a = ampCh
  · subst h1; decide
  by_cases h2 : a = ltCh
  · subst h2; decide
  by_cases h3 : a = gtCh
  · subst h3; decide
  by_cases h4 : a = quotCh
  · subst h4; decide
  by_cases h5 : a = aposCh
  · subst h5; decide
  intro x hx
  rw [escCharSemi, if_neg h1, if_neg h2, if_neg h3, if_neg h4, if_neg h5] at hx
  obtain rfl := List.mem_singleton.mp hx
  exact ⟨h2, h3, h4, h5⟩

theorem escCharNoSemi_forbidden (a : Char) :
    ∀ x ∈ escCharNoSemi a, ¬ x = ltCh ∧ ¬ x = gtCh ∧ ¬ x = quotCh ∧ ¬ x = aposCh := by
  by_cases h1 : a = ampCh
  · subst h1; decide
  by_cases h2 : a = ltCh
  · subst h2; decide
  by_cases h3 : a = gtCh
  · subst h3; decide
  by_cases h4 : a = quotCh
  · subst h4; decide
  by_cases h5 : a = aposCh
  · subst h5; decide
  intro x hx
  rw [escCharNoSemi, if_neg h1, if_neg h2, if_neg h3, if_neg h4, if_neg h5] at hx
  obtain rfl := List.mem_singleton.mp hx
  exact ⟨h2, h3, h4, h5⟩

theorem renderAll_length : ∀ {l : List Submission} {res : List String},
    renderAll l = some res → res.length = l.length := by
  intro l
  induction l with
  | nil =>
      intro res h
      simp [renderAll] at h
      simp [← h]
  | cons d t ih =>
      intro res h
      rw [renderAll] at h
      cases hr : renderSubIndex d with
      | none => rw [hr] at h; simp at h
      | some b =>
          rw [hr] at h
          cases ht : renderAll t with
          | none => rw [ht] at h; simp at h
          | some bs =>
              rw [ht] at h
              simp at h
              simp [← h, ih ht]

theorem renderSubIndex_none {d : Submission} (h : d.timestamp = none) :
    renderSubIndex d = none := by
  simp [renderSubIndex, h]

theorem renderAll_none : ∀ {l : List Submission} {d : Submission},
    d ∈ l → renderSubIndex d = none → renderAll l = none := by
  intro l
  induction l with
  | nil => intro d h; exact absurd h (List.not_mem_nil d)
  | cons a t ih =>
      intro d hmem hnone
      rcases List.mem_cons.mp hmem with rfl | hmem'
      · simp [renderAll, hnone]
      · cases hr : renderSubIndex a with
        | none => simp [renderAll, hr]
        | some b => simp [renderAll, hr, ih hmem' hnone]

/-- C3 (counterexample): in the `src/functions/index.js` variant the
ampersand is replaced by `&amp` without the trailing semicolon, not by
`&amp;` as the claim states. -/
theorem escape_index_semicolon_cex :
    escapeHtmlIndex "&" = "&amp" ∧ ("&amp" : String) ≠ "&amp;" :=
  ⟨by decide, by decide⟩

/-- C3 (amended): both `escapeHtml` variants are equal to a single
left-to-right pass that rewrites each original character once — `&`, `<`,
`>`, `"`, `'` to their entities, everything else to itself — so escape
sequences inserted by later replacements are never re-escaped; the
part_000 variant uses the semicolon-terminated spellings and the index.js
variant the same spellings without the trailing semicolon. -/
theorem escapeHtml_single_pass (s : String) :
    escapeHtmlP0 s = ⟨escMap escCharSemi s.data⟩
      ∧ escapeHtmlIndex s = ⟨escMap escCharNoSemi s.data⟩ :=
  ⟨congrArg String.mk (chainP0_eq s.data),
   congrArg String.mk (chainIndex_eq s.data)⟩

/-- C5: the number of submission blocks rendered on GET never exceeds the
variant's query limit constant — 50 in part_000 and 500 in index.js — no
matter how many records the store holds. -/
theorem get_blocks_capped (store : List Submission) :
    (getBlocksP0 store).length ≤ 50
      ∧ ∀ blocks, getBlocksIndex store = some blocks → blocks.length ≤ 500 := by
  constructor
  · rw [getBlocksP0, subsViews, storeQuery]
    simp only [List.length_map]
    exact List.length_take_le _ _
  · intro blocks h
    rw [renderAll_length h, storeQuery]
    exact List.length_take_le _ _

/-- C5 (witness): on the empty store both variants render at most their
cap. -/
theorem get_blocks_capped_witness :
    (getBlocksP0 []).length ≤ 50 ∧ ([] : List String).length ≤ 500 :=
  ⟨(get_blocks_capped []).1, (get_blocks_capped []).2 [] rfl⟩

/-- C6 (counterexample): in the `src/functions/index.js` variant a stored
record with an absent timestamp does not render as a placeholder — the GET
request fails with the generic 500 error. -/
theorem get_index_absent_timestamp_cex :
    handleGetIndex [⟨some "a", some "b", none⟩]
      = ⟨500, "Server Error: Could not retrieve submissions."⟩ := by decide

/-- C6 (amended): in the part_000 variant a stored record with an absent
timestamp renders the fixed placeholder `N/A` and the GET request still
succeeds with 200; in the index.js variant a returned record with an
absent timestamp makes the GET request fail with the generic 500 error. -/
theorem timestamp_placeholder (store : List Submission) (d : Submission) :
    (d.timestamp = none → (mapDocP0 d).timestamp = "N/A")
      ∧ (handleGetP0 store).status = 200
      ∧ (d ∈ storeQuery store 500 → d.timestamp = none →
          handleGetIndex store = ⟨500, "Server Error: Could not retrieve submissions."⟩) := by
  refine ⟨?_, rfl, ?_⟩
  · intro h; simp [mapDocP0, h]
  · intro hmem hts
    have hnone : getBlocksIndex store = none :=
      renderAll_none hmem (renderSubIndex_none hts)
    simp [handleGetIndex, hnone]

/-- C6 (witness): a one-record store whose record has no timestamp. -/
theorem timestamp_placeholder_witness :
    (mapDocP0 ⟨some "a", some "b", none⟩).timestamp = "N/A"
      ∧ (handleGetP0 [⟨some "a", some "b", none⟩]).status = 200
      ∧ handleGetIndex [⟨some "a", some "b", none⟩]
          = ⟨500, "Server Error: Could not retrieve submissions."⟩ :=
  ⟨(timestamp_placeholder [⟨some "a", some "b", none⟩] ⟨some "a", some "b", none⟩).1 rfl,
   (timestamp_placeholder [⟨some "a", some "b", none⟩] ⟨some "a", some "b", none⟩).2.1,
   (timestamp_placeholder [⟨some "a", some "b", none⟩] ⟨some "a", some "b", none⟩).2.2
     (by decide) rfl⟩

/-- C7 (code evaluation): in the part_000 variant the `data-timestamp`
attribute of every rendered block is the empty string — `sub.rawTimestamp`
is never assigned by the `forEach` mapping, so `sub.rawTimestamp || ""`
always yields `""` and no machine-readable timestamp value is embedded. -/
theorem p0_data_timestamp_empty (d : Submission) :
    jsOr (mapDocP0 d).rawTimestamp "" = ""
      ∧ blockP0 (mapDocP0 d)
        = "\n      <div class=\"submission\">\n        <p class=\"name\">"
            ++ escapeHtmlP0 (mapDocP0 d).name
            ++ "</p>\n        <p class=\"timestamp\" data-timestamp=\"" ++ ""
            ++ "\">" ++ escapeHtmlP0 (mapDocP0 d).timestamp
            ++ "</p>\n        <p class=\"message\">" ++ escapeHtmlP0 (mapDocP0 d).message
            ++ "</p>\n      </div>\n        " :=
  ⟨rfl, rfl⟩

/-- C8: the GET response is a deterministic function of the store
snapshot — two GET requests against the same store state, whatever their
headers, body or arrival time, return identical content, in both
variants. -/
theorem get_deterministic (store : List Submission) (ct1 ct2 : Option String)
    (b1 b2 : List (String × JsVal)) (n1 n2 : Nat) :
    appIndex "GET" ct1 b1 n1 store = appIndex "GET" ct2 b2 n2 store
      ∧ appP0 "GET" ct1 b1 n1 store = appP0 "GET" ct2 b2 n2 store :=
  ⟨rfl, rfl⟩

/-- C9: the output of either `escapeHtml` variant contains no raw `<`, `>`,
`"` or `'` character, so escaped user text can neither introduce live
markup nor break out of an attribute. -/
theorem escapeHtml_no_raw_specials (s : String) (c : Char)
    (h : c ∈ (escapeHtmlIndex s).data ∨ c ∈ (escapeHtmlP0 s).data) :
    ¬ c = ltCh ∧ ¬ c = gtCh ∧ ¬ c = quotCh ∧ ¬ c = aposCh := by
  rcases h with h | h
  · have hd : (escapeHtmlIndex s).data = escMap escCharNoSemi s.data :=
      chainIndex_eq s.data
    rw [hd] at h
    rcases mem_escMap h with ⟨a, _, hc⟩
    exact escCharNoSemi_forbidden a c hc
  · have hd : (escapeHtmlP0 s).data = escMap escCharSemi s.data :=
      chainP0_eq s.data
    rw [hd] at h
    rcases mem_escMap h with ⟨a, _, hc⟩
    exact escCharSemi_forbidden a c hc

/-- C9 (witness): the character `b` survives escaping `"<b>"` and is none
of the four forbidden characters. -/
theorem escapeHtml_no_raw_specials_witness :
    ¬ 'b' = ltCh ∧ ¬ 'b' = gtCh ∧ ¬ 'b' = quotCh ∧ ¬ 'b' = aposCh :=
  escapeHtml_no_raw_specials "<b>" 'b' (Or.inl (by decide))

/-- C10: in the part_000 variant a stored record with an absent name or
message renders the fixed fallback text `N/A` for that field, and the GET
request still succeeds with 200. -/
theorem p0_missing_field_na (d : Submission) (store : List Submission) :
    (d.name = none → (mapDocP0 d).name = "N/A")
      ∧ (d.message = none → (mapDocP0 d).message = "N/A")
      ∧ (handleGetP0 store).status = 200 := by
  refine ⟨?_, ?_, rfl⟩
  · intro h; simp [mapDocP0, jsOr, h]
  · intro h; simp [mapDocP0, jsOr, h]

/-- C10 (witness): a record missing both fields renders `N/A` twice. -/
theorem p0_missing_field_na_witness :
    (mapDocP0 ⟨none, none, some 0⟩).name = "N/A"
      ∧ (mapDocP0 ⟨none, none, some 0⟩).message = "N/A"
      ∧ (handleGetP0 []).status = 200 :=
  ⟨(p0_missing_field_na ⟨none, none, some 0⟩ []).1 rfl,
   (p0_missing_field_na ⟨none, none, some 0⟩ []).2.1 rfl,
   (p0_missing_field_na ⟨none, none, some 0⟩ []).2.2⟩

/-- C1 (counterexample): a name of untrimmed length 101 whose trimmed
length is 1 — inside the claim's trimmed bounds — is rejected with 400 and
nothing is stored, because the handler checks the untrimmed length. -/
theorem post_trimmed_only_cex :
    ((jsTrim cexName).length = 1 ∧ jsTrim cexName = "a" ∧ cexName.length = 101)
      ∧ handlePost successMsgIndex (some urlencodedType)
          [("name", JsVal.str cexName), ("message", JsVal.str "hi")] 0 []
        = (⟨400, "Validation Error: 'name' field must be 100 characters or less."⟩, []) :=
  ⟨by decide, by decide⟩

/-- C1 (amended): for every POST whose content-type contains
`application/x-www-form-urlencoded` and whose body fields are exactly
`name` and `message`, both strings that are non-empty after trimming and
of untrimmed length at most 100 resp. 2000 characters, the handler
responds 200 and appends exactly one record holding the trimmed values
and the freshly generated server timestamp. -/
theorem post_valid_inserts (msg n m ctv : String)
    (body : List (String × JsVal)) (now : Nat) (store : List Submission)
    (hct : strContains ctv urlencodedType = true)
    (hbody : body = [("name", JsVal.str n), ("message", JsVal.str m)]
      ∨ body = [("message", JsVal.str m), ("name", JsVal.str n)])
    (hn1 : ¬ jsTrim n = "") (hn2 : n.length ≤ 100)
    (hm1 : ¬ jsTrim m = "") (hm2 : m.length ≤ 2000) :
    handlePost msg (some ctv) body now store
      = (⟨200, msg⟩, store ++ [⟨some (jsTrim n), some (jsTrim m), some now⟩]) := by
  have hne : ¬ ctv = "" := by
    intro h; subst h; exact absurd hct (by decide)
  have hctOk : ctOk (some ctv) = true := by simp [ctOk, hct, hne]
  have hnne : ¬ n = "" := by
    intro h; apply hn1; subst h; rfl
  have hmne : ¬ m = "" := by
    intro h; apply hm1; subst h; rfl
  have h100 : ¬ 100 < n.length := by omega
  have h2000 : ¬ 2000 < m.length := by omega
  rcases hbody with rfl | rfl
  · have hgn : getField [("name", JsVal.str n), ("message", JsVal.str m)] "name"
        = some (JsVal.str n) := rfl
    have hgm : getField [("name", JsVal.str n), ("message", JsVal.str m)] "message"
        = some (JsVal.str m) := rfl
    have hfs : fieldSetOk ["name", "message"] = true := rfl
    simp [handlePost, hctOk, hgn, hgm, hfs, fieldBad, strVal,
      hnne, hn1, hmne, hm1, h100, h2000]
  · have hgn : getField [("message", JsVal.str m), ("name", JsVal.str n)] "name"
        = some (JsVal.str n) := rfl
    have hgm : getField [("message", JsVal.str m), ("name", JsVal.str n)] "message"
        = some (JsVal.str m) := rfl
    have hfs : fieldSetOk ["message", "name"] = true := rfl
    simp [handlePost, hctOk, hgn, hgm, hfs, fieldBad, strVal,
      hnne, hn1, hmne, hm1, h100, h2000]

/-- C1 (witness): a concrete valid submission is stored with its trimmed
values. -/
theorem post_valid_inserts_witness :
    handlePost successMsgP0 (some urlencodedType)
      [("name", JsVal.str "Alice"), ("message", JsVal.str "Hi")] 7 []
      = (⟨200, successMsgP0⟩, [⟨some "Alice", some "Hi", some 7⟩]) :=
  post_valid_inserts successMsgP0 "Alice" "Hi" urlencodedType
    [("name", JsVal.str "Alice"), ("message", JsVal.str "Hi")] 7 []
    (by decide) (Or.inl rfl) (by decide) (by decide) (by decide) (by decide)

/-- C2: the six validation checks of the POST branch run in exactly the
order content-type, name presence/emptiness, message presence/emptiness,
name length, message length, field-set exactness; the first failing check
determines the 400 response with its own specific message, no later check
influences it, the store is untouched, and when all six pass the
submission is stored with a 200. -/
theorem post_validation_order (msg : String) (ct : Option String)
    (body : List (String × JsVal)) (now : Nat) (store : List Submission) :
    (ctOk ct = false →
        handlePost msg ct body now store
          = (⟨400, "Invalid request format. Expected URL-encoded data."⟩, store))
    ∧ (ctOk ct = true → fieldBad (getField body "name") = true →
        handlePost msg ct body now store
          = (⟨400, "Validation Error: 'name' field is required and cannot be empty."⟩, store))
    ∧ (ctOk ct = true → fieldBad (getField body "name") = false →
        fieldBad (getField body "message") = true →
        handlePost msg ct body now store
          = (⟨400, "Validation Error: 'message' field is required and cannot be empty."⟩, store))
    ∧ (ctOk ct = true → fieldBad (getField body "name") = false →
        fieldBad (getField body "message") = false →
        100 < (strVal (getField body "name")).length →
        handlePost msg ct body now store
          = (⟨400, "Validation Error: 'name' field must be 100 characters or less."⟩, store))
    ∧ (ctOk ct = true → fieldBad (getField body "name") = false →
        fieldBad (getField body "message") = false →
        ¬ 100 < (strVal (getField body "name")).length →
        2000 < (strVal (getField body "message")).length →
        handlePost msg ct body now store
          = (⟨400, "Validation Error: 'message' field must be 2000 characters or less."⟩, store))
    ∧ (ctOk ct = true → fieldBad (getField body "name") = false →
        fieldBad (getField body "message") = false →
        ¬ 100 < (strVal (getField body "name")).length →
        ¬ 2000 < (strVal (getField body "message")).length →
        fieldSetOk (body.map Prod.fst) = false →
        handlePost msg ct body now store
          = (⟨400, "Validation Error: Only 'name' and 'message' fields are allowed."⟩, store))
    ∧ (ctOk ct = true → fieldBad (getField body "name") = false →
        fieldBad (getField body "message") = false →
        ¬ 100 < (strVal (getField body "name")).length →
        ¬ 2000 < (strVal (getField body "message")).length →
        fieldSetOk (body.map Prod.fst) = true →
        handlePost msg ct body now store
          = (⟨200, msg⟩, store ++ [⟨some (jsTrim (strVal (getField body "name"))),
              some (jsTrim (strVal (getField body "message"))), some now⟩])) := by
  refine ⟨?_, ?_, ?_, ?_, ?_, ?_, ?_⟩ <;> intros <;> simp_all [handlePost] <;>
    rw [if_neg (by omega), if_neg (by omega)]

/-- C2 (witness): a POST with no content-type fails at the first check. -/
theorem post_validation_order_witness :
    handlePost successMsgP0 none [] 0 []
      = (⟨400, "Invalid request format. Expected URL-encoded data."⟩, []) :=
  (post_validation_order successMsgP0 none [] 0 []).1 rfl

/-- C4: a POST failing any of the validation checks responds 400 and
performs no store write — the store state is returned unchanged. -/
theorem post_invalid_no_write (msg : String) (ct : Option String)
    (body : List (String × JsVal)) (now : Nat) (store : List Submission)
    (h : postOk ct body = false) :
    (handlePost msg ct body now store).1.status = 400
      ∧ (handlePost msg ct body now store).2 = store := by
  cases hc : ctOk ct with
  | false => simp [handlePost, hc]
  | true =>
    cases hn : fieldBad (getField body "name") with
    | true => simp [handlePost, hc, hn]
    | false =>
      cases hm : fieldBad (getField body "message") with
      | true => simp [handlePost, hc, hn, hm]
      | false =>
        by_cases h4 : 100 < (strVal (getField body "name")).length
        · simp [handlePost, hc, hn, hm, h4]
        by_cases h5 : 2000 < (strVal (getField body "message")).length
        · simp [handlePost, hc, hn, hm, h4, h5]
        cases hf : fieldSetOk (body.map Prod.fst) with
        | false => simp [handlePost, hc, hn, hm, h4, h5, hf]
        | true => simp [postOk, hc, hn, hm, h4, h5, hf] at h

/-- C4 (witness): a POST with no content-type writes nothing. -/
theorem post_invalid_no_write_witness :
    (handlePost successMsgIndex none [] 0 []).1.status = 400
      ∧ (handlePost successMsgIndex none [] 0 []).2 = [] :=
  post_invalid_no_write successMsgIndex none [] 0 [] rfl

end FormHole
